import Mathlib

/-!
Verification of the command-signature matching and validation engine of
`src/pybind/ceph_argparse.py` (the ceph CLI argument parser), via a shallow
embedding in Lean.

Conventions of the embedding:
* Python strings are `String`; character-level work happens on `String.data`
  (a `List Char`) through small structural helpers, so that every definition
  reduces in the kernel.
* Python exceptions are the inductive `Exc`.  The `Argument*` constructors
  mirror the `ArgumentError` subclasses of the source; the `Py*` constructors
  model built-in Python exceptions (`ValueError`, `TypeError`, `IndexError`,
  `NameError`, `AttributeError`) that the source can raise and does not catch.
  Exception message strings are elided: no claim depends on them.
* Fallible code returns `Except Exc _`.
* In-place mutation of an argument descriptor (its `numseen` cursor, the `n`
  bound of an open-ended descriptor, and `instance.val`) is modelled by state
  threading: each loop step receives the descriptor and returns the updated
  one.
* Library calls that are not part of the repository (`long()`, `int(x, 16)`,
  `socket.inet_pton`) are modelled by explicit Lean functions, documented at
  their definition.
-/

/-- Python exception kinds raised by the source.  `ArgumentNumber`,
`ArgumentFormat`, `ArgumentValid` and `ArgumentPrefix` are the
`ArgumentError` subclasses of `ceph_argparse.py`; the `Py*` constructors are
Python built-in exceptions (uncaught by the argparse code).  Messages are
elided. -/
inductive Exc where
  | ArgumentNumber
  | ArgumentFormat
  | ArgumentValid
  | ArgumentPrefix
  | PyValueError
  | PyTypeError
  | PyIndexError
  | PyNameError
  | PyAttributeError
deriving DecidableEq

/-- Whether an `Exc` is an `ArgumentError` (base class of the four
`Argument*` exceptions; `except ArgumentError` in the source catches exactly
these). -/
def isArgumentError : Exc → Bool
  | .ArgumentNumber | .ArgumentFormat | .ArgumentValid | .ArgumentPrefix => true
  | _ => false

/-- A scalar value stored in `instance.val` by a type's `valid` method:
either the (possibly copied) token string, or the numeric interpretation
produced by `CephInt`. -/
inductive Scalar where
  | str (s : String)
  | int (z : Int)
deriving DecidableEq

/-- A value of the result dictionary built by `validate`: a scalar, or the
ordered list accumulated for an open-ended (`n='N'`) descriptor. -/
inductive Val where
  | scal (v : Scalar)
  | seq (l : List Scalar)
deriving DecidableEq

deriving instance DecidableEq for Except

/-- The result dictionary of `validate`, keyed by descriptor name
(`desc.name` may be Python `None`, hence `Option String`).  Modelled as an
association list in insertion order with in-place update. -/
abbrev Dict := List (Option String × Val)

/-- Python `d[k]` lookup (as `d.get(k)` / `k in d`). -/
def dictGet : Dict → Option String → Option Val
  | [], _ => none
  | (k', v) :: rest, k => if k' = k then some v else dictGet rest k

/-- Python `d[k] = v`: replace the binding in place, else append. -/
def dictSet : Dict → Option String → Val → Dict
  | [], k, v => [(k, v)]
  | (k', v') :: rest, k, v =>
    if k' = k then (k', v) :: rest else (k', v') :: dictSet rest k v

/-- Whether the first list is an initial segment of the second. -/
def listLeads : List Char → List Char → Bool
  | [], _ => true
  | _ :: _, [] => false
  | a :: as, b :: bs => a = b && listLeads as bs

/-- Python `s.startswith(t)`. -/
def pyStartswith (s t : String) : Bool := listLeads t.data s.data

/-- Index of the first occurrence of a character, if any. -/
def idxOf : List Char → Char → Option Nat
  | [], _ => none
  | c :: cs, t => if c = t then some 0 else (idxOf cs t).map (· + 1)

/-- Python `s.find(c)`: first index, or -1 when absent. -/
def pyFind (s : String) (c : Char) : Int :=
  match idxOf s.data c with
  | none => -1
  | some i => (i : Int)

/-- Python `s.split(c)` on the character level: split at every occurrence of
`c`, keeping empty pieces. -/
def splitChar (t : Char) : List Char → List (List Char)
  | [] => [[]]
  | c :: cs =>
    if c = t then [] :: splitChar t cs
    else
      match splitChar t cs with
      | [] => [[c]]
      | g :: gs => (c :: g) :: gs

/-- Split at the first occurrence of `t`: `(before, after)`, without `t`. -/
def splitAtFirst (t : Char) : List Char → Option (List Char × List Char)
  | [] => none
  | c :: cs =>
    if c = t then some ([], cs)
    else (splitAtFirst t cs).map (fun p => (c :: p.1, p.2))

/-- Value of a nonempty all-decimal-digit character list, else `none`. -/
def decDigits? (cs : List Char) : Option Nat :=
  if cs ≠ [] ∧ cs.all Char.isDigit then
    some (cs.foldl (fun a c => a * 10 + (c.toNat - 48)) 0)
  else none

/-- Model of Python 2 `long(s)` / `int(s)` with the default base 10 on a
token: an optional single sign followed by ASCII decimal digits.  (Surrounding
whitespace, which Python would strip, does not occur in shell-split command
tokens and is not modelled.)  In particular a hex literal such as `0x1a` is
NOT accepted: `long("0x1a")` raises `ValueError` in Python 2. -/
def pyLongList (cs : List Char) : Option Int :=
  match cs with
  | '+' :: rest => (decDigits? rest).map Int.ofNat
  | '-' :: rest => (decDigits? rest).map (fun v => -(v : Int))
  | _ => (decDigits? cs).map Int.ofNat

/-- `pyLongList` on a string. -/
def pyLong (s : String) : Option Int := pyLongList s.data

/-- Value of a hex digit, if `c` is one (either case). -/
def hexDigit? (c : Char) : Option Nat :=
  if '0' ≤ c ∧ c ≤ '9' then some (c.toNat - 48)
  else if 'a' ≤ c ∧ c ≤ 'f' then some (c.toNat - 87)
  else if 'A' ≤ c ∧ c ≤ 'F' then some (c.toNat - 55)
  else none

/-- Whether `c` is a hex digit. -/
def isHexDigitChar (c : Char) : Bool := (hexDigit? c).isSome

/-- Value of a nonempty all-hex-digit character list, else `none`. -/
def hexDigits? (cs : List Char) : Option Nat :=
  if cs ≠ [] ∧ cs.all isHexDigitChar then
    some (cs.foldl (fun a c => a * 16 + (hexDigit? c).getD 0) 0)
  else none

/-- Unsigned part of Python `int(x, 16)`: hex digits with an optional
`0x`/`0X` marker. -/
def hexBody? (cs : List Char) : Option Nat :=
  match cs with
  | '0' :: c :: rest =>
    if c = 'x' ∨ c = 'X' then hexDigits? rest else hexDigits? cs
  | _ => hexDigits? cs

/-- Model of Python `int(x, 16)`: optional sign, optional `0x` marker, hex
digits. -/
def pyInt16List (cs : List Char) : Option Int :=
  match cs with
  | '+' :: rest => (hexBody? rest).map Int.ofNat
  | '-' :: rest => (hexBody? rest).map (fun v => -(v : Int))
  | _ => (hexBody? cs).map Int.ofNat

/-- One dotted-decimal group of an IPv4 address: 1-3 decimal digits, value at
most 255. -/
def pton4Grp (g : List Char) : Bool :=
  !g.isEmpty && decide (g.length ≤ 3) && g.all Char.isDigit
    && decide ((decDigits? g).getD 256 ≤ 255)

/-- Model of `socket.inet_pton(AF_INET, a)` as a Boolean: four dotted decimal
groups, each 0-255. -/
def pton4 (cs : List Char) : Bool :=
  let gs := splitChar '.' cs
  gs.length == 4 && gs.all pton4Grp

/-- One hex group of an IPv6 address: 1-4 hex digits. -/
def hex4Grp (g : List Char) : Bool :=
  !g.isEmpty && decide (g.length ≤ 4) && g.all isHexDigitChar

/-- Split at the first `::`, if any: `(before, after)`. -/
def findDC : List Char → Option (List Char × List Char)
  | ':' :: ':' :: rest => some ([], rest)
  | c :: rest => (findDC rest).map (fun p => (c :: p.1, p.2))
  | [] => none

/-- Model of `socket.inet_pton(AF_INET6, a)` as a Boolean: eight 16-bit hex
groups separated by `:`, a single `::` standing for one or more zero groups,
and optionally a trailing dotted-decimal IPv4 part standing for the last two
groups. -/
def pton6 (cs : List Char) : Bool :=
  match findDC cs with
  | none =>
    let gs := splitChar ':' cs
    (gs.length == 8 && gs.all hex4Grp) ||
      (gs.length == 7 && (gs.take 6).all hex4Grp &&
        (match gs.getLast? with
         | some g => pton4 g
         | none => false))
  | some (l, r) =>
    if (findDC r).isSome then false
    else
      match r with
      | ':' :: _ => false
      | _ =>
        let lg := if l.isEmpty then [] else splitChar ':' l
        let rg := if r.isEmpty then [] else splitChar ':' r
        if lg.any List.isEmpty || rg.any List.isEmpty then false
        else
          match rg.getLast? with
          | some lastg =>
            if pton4 lastg then
              lg.all hex4Grp && rg.dropLast.all hex4Grp &&
                decide (lg.length + rg.length + 1 ≤ 7)
            else
              lg.all hex4Grp && rg.all hex4Grp &&
                decide (lg.length + rg.length ≤ 7)
          | none => lg.all hex4Grp && decide (lg.length ≤ 7)

/-- The argument types of the engine that the claims exercise, with their
construction-time validation parameters (`CephArgtype` subclasses of the
source).  `CephFloat`, `CephName`, `CephOsdName`, `CephFragment`, `CephUUID`
and the filesystem-probing types (`CephFilepath`, `CephSocketpath`) are not
needed by any claim and are omitted. -/
inductive CephTy where
  | CephInt (range : List Int)
  | CephString (badchars : String)
  | CephChoices (strings : List String)
  | CephPrefix (lit : String)
  | CephPoolname
  | CephObjectname
  | CephPgid
  | CephIPAddr
  | CephEntityAddr
deriving DecidableEq

/-- Python `desc.t == CephPrefix`. -/
def isCephPrefixTy : CephTy → Bool
  | .CephPrefix _ => true
  | _ => false

/-- `CephInt.valid`: `long(s)` (base 10), then the range check; on success
`self.val` is the numeric value. -/
def cephInt_valid (range : List Int) (s : String) : Except Exc Scalar :=
  match pyLong s with
  | none => .error .ArgumentValid
  | some v =>
    match range with
    | [mn, mx] =>
      if v < mn ∨ v > mx then .error .ArgumentValid else .ok (.int v)
    | [mn] =>
      if v < mn then .error .ArgumentValid else .ok (.int v)
    | _ => .ok (.int v)

/-- `CephString.valid`: fails with `ArgumentFormat` when any configured bad
character occurs in `s`. -/
def cephString_valid (badchars : String) (s : String) : Except Exc Scalar :=
  if badchars.data.any (fun c => s.data.contains c) then .error .ArgumentFormat
  else .ok (.str s)

/-- `CephChoices.valid`: exact membership, or in partial mode a prefix of
some choice; `self.val = s` either way. -/
def cephChoices_valid (strings : List String) (s : String) (pflag : Bool) :
    Except Exc Scalar :=
  if !pflag then
    if strings.contains s then .ok (.str s) else .error .ArgumentValid
  else
    if strings.any (fun t => pyStartswith t s) then .ok (.str s)
    else .error .ArgumentValid

/-- `CephPrefix.valid`: in partial mode `s` must be an initial segment of the
literal, otherwise exact equality; failure raises `ArgumentPrefix`. -/
def cephPrefix_valid (lit s : String) (pflag : Bool) : Except Exc Scalar :=
  if pflag then
    if pyStartswith lit s then .ok (.str s) else .error .ArgumentPrefix
  else
    if s = lit then .ok (.str s) else .error .ArgumentPrefix

/-- `CephPgid.valid`: a missing `.` raises `ArgumentFormat`; the two-variable
unpacking of `s.split('.')` raises a Python `ValueError` when the split has
more than two pieces; a non-hex pgnum raises `ArgumentFormat`.  (The source's
`poolid < 0` compares a `str` with an `int`, which in Python 2 is always
`False`; that dead check is not modelled.) -/
def cephPgid_valid (s : String) : Except Exc Scalar :=
  if pyFind s '.' == -1 then .error .ArgumentFormat
  else
    match splitChar '.' s.data with
    | [_poolid, pgnum] =>
      match pyInt16List pgnum with
      | none => .error .ArgumentFormat
      | some _ => .ok (.str s)
    | _ => .error .PyValueError

/-- The state of the local variable `p` (the port) inside
`CephIPAddr.valid`'s bracketed-IPv6 branch: never assigned, assigned a parsed
number, or the parse failed. -/
inductive PortSt where
  | unbound
  | bad
  | num (v : Nat)
deriving DecidableEq

/-- `CephIPAddr.valid`.  IPv4 detection: the token does not start with `[`
and contains `.`.  In the IPv4 branch a non-numeric port makes `int(p)` raise
an uncaught `ValueError`.  In the bracketed-IPv6 branch the source reads
`s[end+1]` unguarded (uncaught `IndexError` when `]` is the last character),
parses the port as `int(s[end+2])` — a SINGLE character — and, when the
character after `]` is not `:`, later reads the never-assigned `p` (uncaught
`NameError`). -/
def cephIPAddr_valid (s : String) : Except Exc Scalar :=
  let cs := s.data
  let isV4 : Bool := !pyStartswith s "[" && cs.contains '.'
  if isV4 then
    match splitAtFirst ':' cs with
    | some (a, p) =>
      match pyLongList p with
      | none => .error .PyValueError
      | some pv =>
        if pv > 65535 then .error .ArgumentValid
        else if !pton4 a then .error .ArgumentValid
        else if pv > 65535 then .error .ArgumentValid
        else .ok (.str s)
    | none => if pton4 cs then .ok (.str s) else .error .ArgumentValid
  else if pyStartswith s "[" then
    match idxOf cs ']' with
    | none => .error .ArgumentFormat
    | some endi =>
      match cs.get? (endi + 1) with
      | none => .error .PyIndexError
      | some ch =>
        let pst : PortSt :=
          if ch = ':' then
            match cs.get? (endi + 2) with
            | some c2 => if c2.isDigit then .num (c2.toNat - 48) else .bad
            | none => .bad
          else .unbound
        match pst with
        | .bad => .error .ArgumentValid
        | .num v =>
          if !pton6 ((cs.drop 1).take (endi - 1)) then .error .ArgumentValid
          else if (v : Int) > 65535 then .error .ArgumentValid
          else .ok (.str s)
        | .unbound =>
          if !pton6 ((cs.drop 1).take (endi - 1)) then .error .ArgumentValid
          else .error .PyNameError
  else if pton6 cs then .ok (.str s)
  else .error .ArgumentValid

/-- `CephEntityAddr.valid`: `ip, nonce = s.split('/')` (an uncaught
`ValueError` unless the split has exactly two pieces), then
`CephIPAddr.valid` on the ip part; on success `self.val = s`. -/
def cephEntityAddr_valid (s : String) : Except Exc Scalar :=
  match splitChar '/' s.data with
  | [ip, _nonce] =>
    match cephIPAddr_valid (String.mk ip) with
    | .error e => .error e
    | .ok _ => .ok (.str s)
  | _ => .error .PyValueError

/-- Dispatch of `instance.valid(s, partial)` over the modelled types.
`CephPoolname` and `CephObjectname` accept anything (`self.val = s`). -/
def ceph_valid (t : CephTy) (s : String) (pflag : Bool) : Except Exc Scalar :=
  match t with
  | .CephInt range => cephInt_valid range s
  | .CephString badchars => cephString_valid badchars s
  | .CephChoices strings => cephChoices_valid strings s pflag
  | .CephPrefix lit => cephPrefix_valid lit s pflag
  | .CephPoolname => .ok (.str s)
  | .CephObjectname => .ok (.str s)
  | .CephPgid => cephPgid_valid s
  | .CephIPAddr => cephIPAddr_valid s
  | .CephEntityAddr => cephEntityAddr_valid s

/-- An argument descriptor (`argdesc` of the source).  `ty` and the typeargs
inside it model `self.t`/`self.instance`'s construction parameters; `numseen`
models the attribute set by `setattr(desc, 'numseen', 0)` before each
consumption loop; `val` models `self.instance.val`, absent (`none`) until a
successful validation writes it.  For an open-ended descriptor (`N = true`)
the bound `n` is mutated upward while tokens are consumed. -/
structure argdesc where
  ty : CephTy
  name : Option String := none
  n : Nat := 1
  N : Bool := false
  req : Bool := true
  numseen : Nat := 0
  val : Option Scalar := none
deriving DecidableEq

/-- The JSON `n` field of a descriptor: a numeric literal, or the letter
`n`/`N` meaning "at least one, but maybe more". -/
inductive NArg where
  | num (k : Nat)
  | letterN
deriving DecidableEq

/-- `argdesc.__init__` for a dict-sourced descriptor: `self.N = (n in
['n','N'])`, and `self.n` is 1 for an open-ended descriptor, else the count
itself. -/
def argdesc_mk (t : CephTy) (name : Option String) (n : NArg) (req : Bool) :
    argdesc :=
  { ty := t
    name := name
    N := (match n with | .letterN => true | .num _ => false)
    n := (match n with | .letterN => 1 | .num k => k)
    req := req }

/-- `parse_funcsig`'s translation of a bare string element: an implicit
`CephPrefix` descriptor named `prefix`, required, singleton. -/
def prefixDesc (lit : String) : argdesc :=
  argdesc_mk (.CephPrefix lit) (some "prefix") (.num 1) true

/-- `str(instance)` — the `__str__` of each modelled type, as used in usage
renderings. -/
def tyStr : CephTy → String
  | .CephInt range =>
    "<int" ++
      (match range with
       | [a] => "[" ++ toString a ++ "-]"
       | [a, b] => "[" ++ toString a ++ "-" ++ toString b ++ "]"
       | _ => "") ++ ">"
  | .CephString badchars =>
    "<string" ++
      (if badchars.data.length ≠ 0 then "(without chars in " ++ badchars ++ ")"
       else "") ++ ">"
  | .CephChoices strings =>
    (match strings with
     | [one] => one
     | [] => ""
     | w :: ws => ws.foldl (fun a b => a ++ "|" ++ b) w)
  | .CephPrefix lit => lit
  | .CephPoolname => "<poolname>"
  | .CephObjectname => "<objectname>"
  | .CephPgid => "<pgid>"
  | .CephIPAddr => "<IPaddr[:port]>"
  | .CephEntityAddr => "<EntityAddr>"

/-- `' '.join`-style concatenation with a single space, in order (the
first-flag loop of `concise_sig`). -/
def joinSpace : List String → String
  | [] => ""
  | w :: ws => ws.foldl (fun acc b => acc ++ " " ++ b) w

/-- `argdesc.helpstr()`: the rendering used by `concise_sig` — `<name>` for a
`CephString`, else `str(instance)`; ` [chunk...]` appended for open-ended
cardinality; the whole wrapped in braces when not required. -/
def helpstr (desc : argdesc) : String :=
  let chunk :=
    match desc.ty with
    | .CephString _ =>
      "<" ++ (match desc.name with | some nm => nm | none => "None") ++ ">"
    | t => tyStr t
  let s := if desc.N then chunk ++ " [" ++ chunk ++ "...]" else chunk
  if !desc.req then "\x7b" ++ s ++ "\x7d" else s

/-- `concise_sig`: the descriptors' `helpstr`s joined by single spaces. -/
def concise_sig (sig : List argdesc) : String := joinSpace (sig.map helpstr)

/-- `copy.deepcopy(signature)` as called by `matchnum` and `validate`: a
structurally equal, independent copy.  Lean values are immutable, so the copy
is the value itself; the source's in-place mutations of the copy are modelled
by state threading inside the consumption loops, and the caller's list is
never rebound. -/
def deepcopy (signature : List argdesc) : List argdesc := signature

/-- `validate_one(word, desc, partial)`: run `desc.instance.valid`; on
success bump `numseen`, set `instance.val`, and for an open-ended descriptor
keep `n` one ahead of `numseen` (`desc.n = desc.numseen + 1`). -/
def validate_one (word : String) (desc : argdesc) (pflag : Bool) :
    Except Exc argdesc :=
  match ceph_valid desc.ty word pflag with
  | .error e => .error e
  | .ok v =>
    let ns := desc.numseen + 1
    .ok { desc with
            val := some v
            numseen := ns
            n := if desc.N then ns + 1 else desc.n }

/-- The inner `while desc.numseen < desc.n` loop of `matchnum` for one
descriptor: `none` models `return matchcnt` (token exhaustion, or a failed
required token); `some ws` models falling through to the next descriptor with
the remaining tokens (a failed optional token is pushed back).  The loop
condition is tested before each pop, so it is distributed over the token
match; each iteration consumes exactly one token. -/
def innerM : List String → argdesc → Bool → Option (List String)
  | [], desc, _ =>
    if desc.numseen < desc.n then none else some []
  | w :: ws, desc, pflag =>
    if desc.numseen < desc.n then
      match validate_one w desc pflag with
      | .ok desc' => innerM ws desc' pflag
      | .error _ => if desc.req then none else some (w :: ws)
    else some (w :: ws)

/-- The descriptor loop of `matchnum`: `numseen` is re-initialized per
descriptor; a completed required descriptor adds one to `matchcnt`; an early
`return` stops contributing. -/
def matchnumAux : List String → List argdesc → Bool → Nat
  | _, [], _ => 0
  | words, desc :: rest, pflag =>
    match innerM words { desc with numseen := 0 } pflag with
    | none => 0
    | some ws => (if desc.req then 1 else 0) + matchnumAux ws rest pflag

/-- `matchnum(args, signature, partial)`: the count of satisfied required
descriptors, computed on `words = args[:]` and `mysig =
copy.deepcopy(signature)`. -/
def matchnum (args : List String) (signature : List argdesc) (pflag : Bool) :
    Nat :=
  matchnumAux args (deepcopy signature) pflag

/-- Python `d[name] += ' ' + val` for the repeated-`CephPrefix` branch of
`validate`: string concatenation when the existing entry is a string;
`' ' + val` raises `TypeError` when `val` is not a string; `int += str`
raises `TypeError`; `list += str` extends the list with the string's
characters, each a one-character string. -/
def pyConcat (old : Val) (v : Scalar) : Except Exc Val :=
  match v with
  | .int _ => .error .PyTypeError
  | .str sv =>
    match old with
    | .scal (.str o) => .ok (.scal (.str (o ++ " " ++ sv)))
    | .scal (.int _) => .error .PyTypeError
    | .seq l =>
      .ok (.seq (l ++ (" " ++ sv).data.map (fun c => Scalar.str (String.mk [c]))))

/-- The result-accumulation block of `validate` (run after each successful
`validate_one`): open-ended descriptors append `instance.val` to a list under
their name (`d[name] += [val]` raises `TypeError` when the existing entry is
not a list); a repeated `CephPrefix` name concatenates with a space;
everything else assigns.  Reading `instance.val` before any successful
validation would be a Python `AttributeError` (unreachable here). -/
def accumulate (desc : argdesc) (d : Dict) : Except Exc Dict :=
  match desc.val with
  | none => .error .PyAttributeError
  | some v =>
    if desc.N then
      match dictGet d desc.name with
      | some (.seq l) => .ok (dictSet d desc.name (.seq (l ++ [v])))
      | some (.scal _) => .error .PyTypeError
      | none => .ok (dictSet d desc.name (.seq [v]))
    else
      match dictGet d desc.name with
      | some old =>
        if isCephPrefixTy desc.ty then
          match pyConcat old v with
          | .error e => .error e
          | .ok nv => .ok (dictSet d desc.name nv)
        else .ok (dictSet d desc.name (.scal v))
      | none => .ok (dictSet d desc.name (.scal v))

/-- Outcome of the inner consumption loop of `validate` for one descriptor:
`ret d` models `return d` (the partial-mode early return), `err e` a raised
exception, `next ws d` falling through to the next descriptor. -/
inductive VStep where
  | ret (d : Dict)
  | err (e : Exc)
  | next (ws : List String) (d : Dict)
deriving DecidableEq

/-- The inner `while desc.numseen < desc.n` loop of `validate` for one
descriptor.  On token exhaustion a required unsatisfied descriptor raises
`ArgumentNumber` (or returns the partial dict in partial mode); note the
open-ended case only fires when nothing was seen.  A failed optional token is
pushed back; a failed required token re-raises (or returns the partial dict).
`validate_one` is called WITHOUT the partial flag (strict validation of each
token, as in the source).  The loop condition is tested before each pop, so
it is distributed over the token match. -/
def innerV : List String → argdesc → Dict → Bool → VStep
  | [], desc, d, pflag =>
    if desc.numseen < desc.n then
      if desc.req then
        if desc.N ∧ desc.numseen < 1 then
          if pflag then .ret d else .err .ArgumentNumber
        else if !desc.N ∧ desc.numseen < desc.n then
          if pflag then .ret d else .err .ArgumentNumber
        else .next [] d
      else .next [] d
    else .next [] d
  | w :: ws, desc, d, pflag =>
    if desc.numseen < desc.n then
      match validate_one w desc false with
      | .error e =>
        if !desc.req then .next (w :: ws) d
        else if pflag then .ret d else .err e
      | .ok desc' =>
        match accumulate desc' d with
        | .error e => .err e
        | .ok d' => innerV ws desc' d' pflag
    else .next (w :: ws) d

/-- The descriptor loop of `validate`, threading the remaining tokens and the
result dict. -/
def validateAux : List String → List argdesc → Dict → Bool → Except Exc Dict
  | _, [], d, _ => .ok d
  | words, desc :: rest, d, pflag =>
    match innerV words { desc with numseen := 0 } d pflag with
    | .ret d' => .ok d'
    | .err e => .error e
    | .next ws d' => validateAux ws rest d' pflag

/-- `validate(args, signature, partial)`: consume `args[:]` against
`copy.deepcopy(signature)` left to right, building the name-keyed result
dict.  In partial mode a failure of a required descriptor returns the
partially built dict instead of raising. -/
def validate (args : List String) (signature : List argdesc) (pflag : Bool) :
    Except Exc Dict :=
  validateAux args (deepcopy signature) [] pflag

/-- One entry of the parsed command table (`sigdict[cmdtag]`): the parsed
signature and its help text. -/
structure Cmd where
  sig : List argdesc
  helptext : String
deriving DecidableEq

/-- The two caller options `validate_command` reads from the argparse
namespace.  Python truthiness (`if parsed_args.output_format:`) is modelled
by `Option`, `none` standing for a falsy value. -/
structure ParsedArgs where
  output_format : Option String := none
  threshold : Option String := none
deriving DecidableEq

/-- Short tag standing for an exception's message in diagnostics (messages
are elided in this model). -/
def excStr : Exc → String
  | .ArgumentNumber => "ArgumentNumber"
  | .ArgumentFormat => "ArgumentFormat"
  | .ArgumentValid => "ArgumentValid"
  | .ArgumentPrefix => "ArgumentPrefix"
  | .PyValueError => "ValueError"
  | .PyTypeError => "TypeError"
  | .PyIndexError => "IndexError"
  | .PyNameError => "NameError"
  | .PyAttributeError => "AttributeError"

/-- The verbose "better match" diagnostic line of the ranking loop. -/
def betterLine (matched best : Nat) (tag : String) (sig : List argdesc) :
    String :=
  "better match: " ++ toString matched ++ " > " ++ toString best ++ ": " ++
    tag ++ ":" ++ concise_sig sig ++ " "

/-- The verbose "equal match" diagnostic line of the ranking loop. -/
def equalLine (matched best : Nat) (tag : String) (sig : List argdesc) :
    String :=
  "equal match: " ++ toString matched ++ " > " ++ toString best ++ ": " ++
    tag ++ ":" ++ concise_sig sig ++ " "

/-- The verbose "bestcmds:" line (the source prints the Python repr of the
candidate list; abbreviated here to the command tags). -/
def bestcmdsLine (bcs : List (String × Cmd)) : String :=
  "bestcmds: " ++ joinSpace (bcs.map (·.1))

/-- The verbose diagnostic lines printed when a candidate fails strict
validation with an `ArgumentError` other than `ArgumentPrefix`. -/
def invalidLines (args : List String) (e : Exc) (cmd : Cmd) : List String :=
  [joinSpace args ++ ": invalid command",
   excStr e,
   "did you mean " ++ concise_sig cmd.sig ++ "?\n\t" ++ cmd.helptext]

/-- The ranking loop of `validate_command` (lines 789-806): score every
candidate with `matchnum(args, sig, partial=True)`, tracking the maximum and
the list of candidates achieving it (a strictly better score restarts the
list, an equal score appends; note the very first candidate, scoring 0 equal
to the initial maximum, is appended).  Returns `(best_match_cnt, bestcmds,
stderr lines)`. -/
def rankAux (args : List String) (verbose : Bool) :
    List (String × Cmd) → Nat → List (String × Cmd) → List String →
    Nat × List (String × Cmd) × List String
  | [], best, bcs, lines => (best, bcs, lines)
  | (tag, cmd) :: rest, best, bcs, lines =>
    let matched := matchnum args cmd.sig true
    if matched > best then
      rankAux args verbose rest matched [(tag, cmd)]
        (lines ++ if verbose then [betterLine matched best tag cmd.sig] else [])
    else if matched = best then
      rankAux args verbose rest best (bcs ++ [(tag, cmd)])
        (lines ++ if verbose then [equalLine matched best tag cmd.sig] else [])
    else rankAux args verbose rest best bcs lines

/-- The top-ranked candidate list of `validate_command` for the given table
and tokens. -/
def bestcmds (sigdict : List (String × Cmd)) (args : List String) :
    List (String × Cmd) :=
  (rankAux args false sigdict 0 [] []).2.1

/-- The revalidation loop of `validate_command` (lines 812-833): strictly
validate each top-ranked candidate in order.  `ArgumentPrefix` is silently
skipped; any other `ArgumentError` is skipped too (with diagnostics only when
verbose); any non-`ArgumentError` exception propagates.  The source's `break`
only leaves the inner single-entry loop, so the scan continues after a
success and a later success overwrites `found`/`valid_dict`.  Note the
verbose flag is passed on as `validate`'s `partial` parameter, exactly as in
the source (line 817). -/
def revalAux (args : List String) (verbose : Bool) :
    List (String × Cmd) → List argdesc → Dict → List String →
    List String × Except Exc (List argdesc × Dict)
  | [], found, vd, lines => (lines, .ok (found, vd))
  | (_tag, cmd) :: rest, found, vd, lines =>
    match validate args cmd.sig verbose with
    | .ok d => revalAux args verbose rest cmd.sig d lines
    | .error e =>
      if e = .ArgumentPrefix then revalAux args verbose rest found vd lines
      else if isArgumentError e then
        revalAux args verbose rest found vd
          (lines ++ if verbose then invalidLines args e cmd else [])
      else (lines, .error e)

/-- Merging of the caller options into the winning dict (lines 842-846). -/
def mergeOpts (parsed_args : ParsedArgs) (d : Dict) : Dict :=
  let d1 :=
    match parsed_args.output_format with
    | some f => dictSet d (some "format") (.scal (.str f))
    | none => d
  match parsed_args.threshold with
  | some t => dictSet d1 (some "threshold") (.scal (.str t))
  | none => d1

/-- `validate_command(parsed_args, sigdict, args, verbose)`: rank all
candidates, strictly revalidate the top-ranked ones, and either return the
winning dict with the caller options merged in, or print `no valid command
found; 10 closest matches:` followed by the usage renderings of at most ten
top-ranked candidates and return `None`.  Empty `args` falls through to an
implicit `None` with no output.  The result is paired with the list of
stderr lines; an uncaught Python exception is the `.error` case. -/
def validate_command (parsed_args : ParsedArgs) (sigdict : List (String × Cmd))
    (args : List String) (verbose : Bool) :
    Except Exc (Option Dict) × List String :=
  if args.isEmpty then (.ok none, [])
  else
    let r := rankAux args verbose sigdict 0 [] []
    let bcs := r.2.1
    let lines1 := r.2.2 ++ if verbose then [bestcmdsLine bcs] else []
    match revalAux args verbose bcs [] [] lines1 with
    | (lines2, .error e) => (.error e, lines2)
    | (lines2, .ok (found, vd)) =>
      if found.isEmpty then
        (.ok none,
         lines2 ++ "no valid command found; 10 closest matches:" ::
           (bcs.take 10).map (fun tc => concise_sig tc.2.sig))
      else (.ok (some (mergeOpts parsed_args vd)), lines2)

/-- The caller's bindings around a call to `matchnum`/`validate`: the token
list and the signature object. -/
structure CallerView where
  args : List String
  signature : List argdesc
deriving DecidableEq

/-- A call to `matchnum` as the caller sees it: the score, and the caller's
state after the call.  The source computes on `args[:]` and
`copy.deepcopy(signature)` and never writes through the caller's references,
so the caller-visible state after the call is the state before it. -/
def matchnumCall (st : CallerView) (pflag : Bool) : Nat × CallerView :=
  (matchnum st.args st.signature pflag, st)

/-- A call to `validate` as the caller sees it (see `matchnumCall`). -/
def validateCall (st : CallerView) (pflag : Bool) :
    Except Exc Dict × CallerView :=
  (validate st.args st.signature pflag, st)

/-- Two descriptors that agree on everything except the transient consumption
state `numseen` and `instance.val`. -/
def cursorOnlyDiff (d1 d2 : argdesc) : Prop :=
  d1.ty = d2.ty ∧ d1.name = d2.name ∧ d1.n = d2.n ∧ d1.N = d2.N ∧
    d1.req = d2.req

/-- Count of required descriptors in a signature. -/
def countReq : List argdesc → Nat
  | [] => 0
  | d :: rest => (if d.req then 1 else 0) + countReq rest

/-- Whether a `validate` outcome is a raised `ArgumentError`. -/
def isArgErrorResult : Except Exc Dict → Bool
  | .error e => isArgumentError e
  | .ok _ => false

/-- The signature of the spec's worked example (claims C3):
`["pool", {"type":"CephPoolname","name":"pool"},
  {"type":"CephInt","name":"n","n":"N","req":false}]` as parsed by
`parse_funcsig`. -/
def sig3 : List argdesc :=
  [prefixDesc "pool",
   argdesc_mk .CephPoolname (some "pool") (.num 1) true,
   argdesc_mk (.CephInt []) (some "n") .letterN false]

/-- A signature with a required singleton `CephInt` after a literal: used to
exhibit the verbose-flag bug of `validate_command` (claim C1). -/
def sigC1 : List argdesc :=
  [prefixDesc "pool", argdesc_mk (.CephInt []) (some "n") (.num 1) true]

/-- A one-command table over `sigC1`. -/
def tableC1 : List (String × Cmd) :=
  [("cmd0", { sig := sigC1, helptext := "help" })]

/-- An argparse namespace with both options falsy. -/
def pa0 : ParsedArgs := {}

/-- A required open-ended `CephString` descriptor (claim C4's accumulation
example). -/
def strNdesc : argdesc :=
  argdesc_mk (.CephString "") (some "args") .letterN true

/-- Field bookkeeping of a successful `validate_one`: only `val`, `numseen`
and (for an open-ended descriptor) `n` change, and `n` is kept one ahead of
`numseen`. -/
theorem validate_one_ok_fields {w : String} {d d' : argdesc} {p : Bool}
    (h : validate_one w d p = .ok d') :
    d'.ty = d.ty ∧ d'.name = d.name ∧ d'.N = d.N ∧ d'.req = d.req ∧
      d'.numseen = d.numseen + 1 ∧
      d'.n = (if d.N then d.numseen + 2 else d.n) ∧ (∃ v, d'.val = some v) := by
  unfold validate_one at h
  cases hv : ceph_valid d.ty w p with
  | error e => rw [hv] at h; cases h
  | ok v =>
    rw [hv] at h
    simp only [Except.ok.injEq] at h
    subst h
    refine ⟨rfl, rfl, rfl, rfl, rfl, rfl, v, rfl⟩

/-- A required open-ended descriptor whose consumption loop is entered can
only leave `matchnum`'s scan through an early `return`: after each success
the bound `n` moves one ahead of `numseen`, so the loop condition never
becomes false, and a failed token or token exhaustion returns. -/
theorem innerM_reqN (words : List String) :
    ∀ (d : argdesc) (p : Bool), d.N = true → d.req = true →
      d.numseen < d.n → innerM words d p = none := by
  induction words with
  | nil =>
    intro d p _ _ hlt
    simp [innerM, hlt]
  | cons w ws ih =>
    intro d p hN hreq hlt
    simp only [innerM, if_pos hlt]
    cases hv : validate_one w d p with
    | error e => simp [hreq]
    | ok d' =>
      obtain ⟨_, _, hN', hreq', hns, hn, _⟩ := validate_one_ok_fields hv
      refine ih d' p (hN' ▸ hN) (hreq' ▸ hreq) ?_
      rw [hns, hn, if_pos hN]
      omega

/-- Appending a required open-ended descriptor to a signature never changes
`matchnum`'s score. -/
theorem matchnumAux_append_reqN (d : argdesc) (hN : d.N = true)
    (hreq : d.req = true) (hn : 1 ≤ d.n) (sig : List argdesc) :
    ∀ (words : List String) (p : Bool),
      matchnumAux words (sig ++ [d]) p = matchnumAux words sig p := by
  induction sig with
  | nil =>
    intro words p
    have h0 : ({ d with numseen := 0 } : argdesc).numseen <
        ({ d with numseen := 0 } : argdesc).n := hn
    simp only [List.nil_append, matchnumAux]
    rw [innerM_reqN words { d with numseen := 0 } p hN hreq h0]
  | cons a rest ih =>
    intro words p
    simp only [List.cons_append, matchnumAux]
    cases h : innerM words { a with numseen := 0 } p with
    | none => rfl
    | some ws =>
      exact congrArg (fun x => (if a.req = true then 1 else 0) + x) (ih ws p)

/-- `matchnum`'s score is bounded by the number of required descriptors. -/
theorem matchnumAux_le (sig : List argdesc) :
    ∀ (words : List String) (p : Bool),
      matchnumAux words sig p ≤ countReq sig := by
  induction sig with
  | nil => intro words p; simp [matchnumAux, countReq]
  | cons a rest ih =>
    intro words p
    simp only [matchnumAux, countReq]
    cases h : innerM words { a with numseen := 0 } p with
    | none => exact Nat.zero_le _
    | some ws => exact Nat.add_le_add_left (ih ws p) _

/-- C10 (confirmed): a required open-ended (`n='N'`) descriptor never
contributes to the score returned by `matchnum`, even when it consumed and
validated tokens: because its cardinality bound is kept one ahead of the
tokens seen, its loop only exits through `return matchcnt` (token exhaustion
or a failed token), so appending such a descriptor leaves the score
unchanged, and a signature ending in one can never score above the count of
its earlier required descriptors. -/
theorem matchnum_required_openended_no_score (args : List String)
    (sig : List argdesc) (p : Bool) (d : argdesc)
    (hN : d.N = true) (hreq : d.req = true) (hn : 1 ≤ d.n) :
    matchnum args (sig ++ [d]) p = matchnum args sig p ∧
    matchnum args (sig ++ [d]) p ≤ countReq sig := by
  have h := matchnumAux_append_reqN d hN hreq hn sig args p
  exact ⟨h, by rw [show matchnum args (sig ++ [d]) p =
    matchnumAux args (sig ++ [d]) p from rfl, h]; exact matchnumAux_le sig args p⟩

/-- Witness for C10 at a concrete signature and token list. -/
theorem matchnum_required_openended_no_score_witness :
    (argdesc_mk (.CephInt []) (some "n") .letterN true).N = true ∧
    (argdesc_mk (.CephInt []) (some "n") .letterN true).req = true ∧
    1 ≤ (argdesc_mk (.CephInt []) (some "n") .letterN true).n ∧
    matchnum ["pool", "1", "2"]
        ([prefixDesc "pool"] ++ [argdesc_mk (.CephInt []) (some "n") .letterN true])
        true =
      matchnum ["pool", "1", "2"] [prefixDesc "pool"] true ∧
    matchnum ["pool", "1", "2"]
        ([prefixDesc "pool"] ++ [argdesc_mk (.CephInt []) (some "n") .letterN true])
        true ≤
      countReq [prefixDesc "pool"] := by
  refine ⟨rfl, rfl, by decide, ?_, ?_⟩
  · exact (matchnum_required_openended_no_score ["pool", "1", "2"]
      [prefixDesc "pool"] true _ rfl rfl (by decide)).1
  · exact (matchnum_required_openended_no_score ["pool", "1", "2"]
      [prefixDesc "pool"] true _ rfl rfl (by decide)).2

/-- `matchnum`'s consumption loop never reads `instance.val`: the stored
value is overwritten on the first success and ignored otherwise. -/
theorem innerM_val (words : List String) :
    ∀ (d : argdesc) (v : Option Scalar) (p : Bool),
      innerM words { d with val := v } p = innerM words d p := by
  induction words with
  | nil => intro d v p; rfl
  | cons w ws ih =>
    intro d v p
    simp only [innerM, validate_one]

/-- `matchnum`'s score is independent of the initial `numseen` cursor and
`instance.val` of every descriptor: `numseen` is re-initialized to 0 per
descriptor and `val` is only written. -/
theorem matchnumAux_scrub (sig : List argdesc) :
    ∀ (words : List String) (ns : Nat) (v : Option Scalar) (p : Bool),
      matchnumAux words (sig.map (fun d => { d with numseen := ns, val := v })) p
        = matchnumAux words sig p := by
  induction sig with
  | nil => intro words ns v p; rfl
  | cons a rest ih =>
    intro words ns v p
    simp only [List.map_cons, matchnumAux]
    rw [show ({ ({ a with numseen := ns, val := v } : argdesc) with
          numseen := 0 } : argdesc) =
        { ({ a with numseen := 0 } : argdesc) with val := v } from rfl]
    rw [innerM_val words { a with numseen := 0 } v p]
    cases h : innerM words { a with numseen := 0 } p with
    | none => rfl
    | some ws =>
      exact congrArg (fun x => (if a.req = true then 1 else 0) + x) (ih ws ns v p)

/-- `validate`'s consumption loop never reads the initial `instance.val`:
the accumulation block only runs right after `validate_one` overwrote it. -/
theorem innerV_val (words : List String) :
    ∀ (d : argdesc) (v : Option Scalar) (dct : Dict) (p : Bool),
      innerV words { d with val := v } dct p = innerV words d dct p := by
  induction words with
  | nil => intro d v dct p; rfl
  | cons w ws ih =>
    intro d v dct p
    simp only [innerV, validate_one]

/-- `validate`'s result is independent of the initial `numseen` cursor and
`instance.val` of every descriptor. -/
theorem validateAux_scrub (sig : List argdesc) :
    ∀ (words : List String) (dct : Dict) (ns : Nat) (v : Option Scalar)
      (p : Bool),
      validateAux words (sig.map (fun d => { d with numseen := ns, val := v }))
          dct p
        = validateAux words sig dct p := by
  induction sig with
  | nil => intro words dct ns v p; rfl
  | cons a rest ih =>
    intro words dct ns v p
    simp only [List.map_cons, validateAux]
    rw [show ({ ({ a with numseen := ns, val := v } : argdesc) with
          numseen := 0 } : argdesc) =
        { ({ a with numseen := 0 } : argdesc) with val := v } from rfl]
    rw [innerV_val words { a with numseen := 0 } v dct p]
    cases h : innerV words { a with numseen := 0 } dct p with
    | ret d' => rfl
    | err e => rfl
    | next ws d' => exact ih ws d' ns v p

/-- C2 (confirmed): `matchnum` and `validate` leave the caller's signature
and token list unchanged — both compute on `args[:]` and
`copy.deepcopy(signature)`, so the caller-visible state after a call equals
the state before it, and a second attempt on the same signature object
returns the same result as the first.  Moreover all consumption-cursor state
is freshly initialized per attempt: overwriting every descriptor's `numseen`
and `instance.val` with arbitrary stale values changes neither `matchnum`'s
score nor `validate`'s result. -/
theorem matchnum_validate_frame (st : CallerView) (p : Bool) (ns : Nat)
    (v : Option Scalar) :
    (matchnumCall st p).2 = st ∧
    (validateCall st p).2 = st ∧
    (matchnumCall (matchnumCall st p).2 p).1 = (matchnumCall st p).1 ∧
    (validateCall (validateCall st p).2 p).1 = (validateCall st p).1 ∧
    matchnum st.args
        (st.signature.map (fun d => { d with numseen := ns, val := v })) p =
      matchnum st.args st.signature p ∧
    validate st.args
        (st.signature.map (fun d => { d with numseen := ns, val := v })) p =
      validate st.args st.signature p := by
  refine ⟨rfl, rfl, rfl, rfl, ?_, ?_⟩
  · exact matchnumAux_scrub st.signature st.args ns v p
  · exact validateAux_scrub st.signature st.args [] ns v p

/-- A descriptor whose cardinality is already satisfied falls through to the
next descriptor without touching the tokens or the dict. -/
theorem innerV_done (words : List String) (d : argdesc) (dct : Dict)
    (p : Bool) (h : ¬ d.numseen < d.n) :
    innerV words d dct p = .next words dct := by
  cases words with
  | nil => simp [innerV, h]
  | cons w ws => simp [innerV, h]

/-- The accumulation of a chain of literal-`prefix` descriptors whose
literals are the remaining tokens, one token each, all named `prefix`:
each consumed literal is concatenated onto the existing entry with a single
space, in consumption order. -/
theorem validateAux_prefixChain (ws : List String) :
    ∀ (acc : String),
      validateAux ws (ws.map prefixDesc) [(some "prefix", .scal (.str acc))]
          false =
        .ok [(some "prefix",
              .scal (.str (ws.foldl (fun a b => a ++ " " ++ b) acc)))] := by
  induction ws with
  | nil => intro acc; rfl
  | cons w ws' ih =>
    intro acc
    simp only [List.map_cons, validateAux, List.foldl_cons]
    rw [show innerV (w :: ws') { prefixDesc w with numseen := 0 }
          [(some "prefix", .scal (.str acc))] false =
        innerV ws' { prefixDesc w with numseen := 1, val := some (.str w) }
          [(some "prefix", .scal (.str (acc ++ " " ++ w)))] false from by
      simp [innerV, validate_one, ceph_valid, cephPrefix_valid, prefixDesc,
        argdesc_mk, accumulate, dictGet, dictSet, isCephPrefixTy, pyConcat]]
    rw [innerV_done ws' _ _ false (by simp [prefixDesc, argdesc_mk])]
    exact ih (acc ++ " " ++ w)

/-- The consumption loop of a required open-ended `CephString` descriptor
that has already seen `k ≥ 1` tokens: it consumes every remaining token,
appending each to the end of the accumulated list in input order, and falls
through on token exhaustion. -/
theorem innerV_strN (ts : List String) :
    ∀ (k : Nat) (acc : List Scalar) (v0 : Option Scalar), 1 ≤ k →
      innerV ts
          { ty := .CephString "", name := some "args", n := k + 1, N := true,
            req := true, numseen := k, val := v0 }
          [(some "args", .seq acc)] false =
        .next [] [(some "args", .seq (acc ++ ts.map Scalar.str))] := by
  induction ts with
  | nil =>
    intro k acc v0 hk
    have hk1 : ¬ k < 1 := by omega
    simp [innerV, hk1]
  | cons t ts' ih =>
    intro k acc v0 hk
    rw [show innerV (t :: ts')
          ({ ty := .CephString "", name := some "args", n := k + 1, N := true,
             req := true, numseen := k, val := v0 } : argdesc)
          [(some "args", .seq acc)] false =
        innerV ts'
          ({ ty := .CephString "", name := some "args", n := k + 1 + 1,
             N := true, req := true, numseen := k + 1,
             val := some (.str t) } : argdesc)
          [(some "args", .seq (acc ++ [.str t]))] false from by
      simp [innerV, validate_one, ceph_valid, cephString_valid, accumulate,
        dictGet, dictSet]]
    have h2 := ih (k + 1) (acc ++ [Scalar.str t]) (some (Scalar.str t))
      (by omega)
    rw [h2]
    simp

/-- C4 (confirmed): in `validate`'s result, consecutive literal-`prefix`
descriptors sharing one name concatenate their validated literals into a
single string joined by single spaces in consumption order, and an open-ended
descriptor accumulates its consumed values into a list preserving input
order, with no deduplication or reordering (duplicate tokens stay
duplicated). -/
theorem validate_accumulation :
    (∀ (ws : List String), ws ≠ [] →
      validate ws (ws.map prefixDesc) false =
        .ok [(some "prefix", .scal (.str (joinSpace ws)))]) ∧
    (∀ (ts : List String), ts ≠ [] →
      validate ts [strNdesc] false =
        .ok [(some "args", .seq (ts.map Scalar.str))]) := by
  constructor
  · intro ws hws
    cases ws with
    | nil => exact absurd rfl hws
    | cons w ws' =>
      show validateAux (w :: ws') ((w :: ws').map prefixDesc) [] false = _
      simp only [List.map_cons, validateAux]
      rw [show innerV (w :: ws') { prefixDesc w with numseen := 0 } [] false =
          innerV ws' { prefixDesc w with numseen := 1, val := some (.str w) }
            [(some "prefix", .scal (.str w))] false from by
        simp [innerV, validate_one, ceph_valid, cephPrefix_valid, prefixDesc,
          argdesc_mk, accumulate, dictGet, dictSet, isCephPrefixTy]]
      rw [innerV_done ws' _ _ false (by simp [prefixDesc, argdesc_mk])]
      exact validateAux_prefixChain ws' w
  · intro ts hts
    cases ts with
    | nil => exact absurd rfl hts
    | cons t ts' =>
      show validateAux (t :: ts') [strNdesc] [] false = _
      simp only [validateAux]
      rw [show innerV (t :: ts') { strNdesc with numseen := 0 } [] false =
          innerV ts'
            ({ ty := .CephString "", name := some "args", n := 1 + 1,
               N := true, req := true, numseen := 1,
               val := some (.str t) } : argdesc)
            [(some "args", .seq [.str t])] false from by
        simp [innerV, validate_one, ceph_valid, cephString_valid, strNdesc,
          argdesc_mk, accumulate, dictGet, dictSet]]
      rw [innerV_strN ts' 1 [.str t] (some (.str t)) (by omega)]
      rfl

/-- Witness for C4: three repeated literals concatenate with spaces; three
tokens (with a duplicate) accumulate in order under the open-ended
descriptor. -/
theorem validate_accumulation_witness :
    validate ["a", "b", "c"] (["a", "b", "c"].map prefixDesc) false =
      .ok [(some "prefix", .scal (.str "a b c"))] ∧
    validate ["x", "y", "x"] [strNdesc] false =
      .ok [(some "args", .seq [.str "x", .str "y", .str "x"])] := by
  constructor
  · exact (validate_accumulation.1 ["a", "b", "c"] (by decide)).trans (by decide)
  · exact (validate_accumulation.2 ["x", "y", "x"] (by decide)).trans (by decide)

/-- With `verbose=False` the ranking loop prints nothing. -/
theorem rankAux_lines (args : List String) :
    ∀ (l : List (String × Cmd)) (best : Nat) (bcs : List (String × Cmd))
      (lines : List String),
      (rankAux args false l best bcs lines).2.2 = lines := by
  intro l
  induction l with
  | nil => intro best bcs lines; rfl
  | cons tc rest ih =>
    intro best bcs lines
    obtain ⟨tag, cmd⟩ := tc
    simp only [rankAux]
    by_cases h1 : matchnum args cmd.sig true > best
    · simp only [if_pos h1]
      exact (ih _ _ _).trans (by simp)
    · simp only [if_neg h1]
      by_cases h2 : matchnum args cmd.sig true = best
      · simp only [if_pos h2]
        exact (ih _ _ _).trans (by simp)
      · simp only [if_neg h2]
        exact ih _ _ _

/-- The revalidation loop with `verbose=False`, when every remaining
candidate fails strict validation with an `ArgumentError`: every candidate is
skipped (silently — no diagnostic line is added) and the accumulated state
comes through unchanged. -/
theorem revalAux_allErr (args : List String) :
    ∀ (l : List (String × Cmd)) (found : List argdesc) (vd : Dict)
      (lines : List String),
      (∀ tc ∈ l, isArgErrorResult (validate args tc.2.sig false) = true) →
      revalAux args false l found vd lines = (lines, .ok (found, vd)) := by
  intro l
  induction l with
  | nil => intro found vd lines _; rfl
  | cons tc rest ih =>
    intro found vd lines h
    obtain ⟨tag, cmd⟩ := tc
    have h1 := h (tag, cmd) (List.mem_cons_self _ _)
    have hrest : ∀ tc ∈ rest, isArgErrorResult (validate args tc.2.sig false) = true :=
      fun tc htc => h tc (List.mem_cons_of_mem _ htc)
    cases hv : validate args cmd.sig false with
    | ok d =>
      rw [show validate args (tag, cmd).2.sig false = validate args cmd.sig false
        from rfl, hv] at h1
      simp [isArgErrorResult] at h1
    | error e =>
      rw [show validate args (tag, cmd).2.sig false = validate args cmd.sig false
        from rfl, hv] at h1
      simp only [isArgErrorResult] at h1
      simp only [revalAux, hv]
      by_cases he : e = Exc.ArgumentPrefix
      · simp only [if_pos he]
        exact ih found vd lines hrest
      · simp only [if_neg he, h1, if_true]
        exact (ih found vd _ hrest).trans (by simp)

/-- C5 (confirmed): during command resolution (strict revalidation,
`verbose=False`), an `ArgumentPrefix` raised by `validate` on a top-ranked
candidate makes the scan skip that candidate silently and continue; any other
`ArgumentError` likewise does not abort the scan of the remaining candidates
(non-`ArgumentError` Python exceptions are not caught by `validate_command`
and are outside the spec's validation-error kinds); and when every top-ranked
candidate fails with an `ArgumentError`, `validate_command` returns `None`
and prints the `no valid command found` line followed by the usage renderings
of at most ten top-ranked candidates. -/
theorem validate_command_resolution (pa : ParsedArgs)
    (sigdict : List (String × Cmd)) (args : List String) (hargs : args ≠ []) :
    (∀ (v : Bool) (tag : String) (cmd : Cmd) (rest : List (String × Cmd))
        (found : List argdesc) (vd : Dict) (lines : List String),
      validate args cmd.sig v = .error .ArgumentPrefix →
      revalAux args v ((tag, cmd) :: rest) found vd lines =
        revalAux args v rest found vd lines) ∧
    (∀ (tag : String) (cmd : Cmd) (rest : List (String × Cmd))
        (found : List argdesc) (vd : Dict) (lines : List String) (e : Exc),
      validate args cmd.sig false = .error e → isArgumentError e = true →
      revalAux args false ((tag, cmd) :: rest) found vd lines =
        revalAux args false rest found vd lines) ∧
    ((∀ tc ∈ bestcmds sigdict args,
        isArgErrorResult (validate args tc.2.sig false) = true) →
      validate_command pa sigdict args false =
        (.ok none,
         "no valid command found; 10 closest matches:" ::
           ((bestcmds sigdict args).take 10).map
             (fun tc => concise_sig tc.2.sig))) := by
  refine ⟨?_, ?_, ?_⟩
  · intro v tag cmd rest found vd lines hv
    simp [revalAux, hv]
  · intro tag cmd rest found vd lines e hv he
    simp only [revalAux, hv]
    by_cases hp : e = Exc.ArgumentPrefix
    · simp [hp]
    · simp [hp, he]
  · intro h
    have hne : args.isEmpty = false := by
      cases args with
      | nil => exact absurd rfl hargs
      | cons a as => rfl
    simp only [validate_command, hne, Bool.false_eq_true, if_false]
    rw [rankAux_lines args sigdict 0 [] []]
    rw [show (rankAux args false sigdict 0 [] []).2.1 = bestcmds sigdict args
      from rfl]
    rw [revalAux_allErr args _ [] [] _ h]
    simp

/-- Witness for C5 at a one-command table whose literal does not match the
token: the candidate fails with `ArgumentPrefix`, is skipped silently, and
resolution returns `None` with the bounded diagnostic listing. -/
theorem validate_command_resolution_witness :
    validate_command pa0 [("cmd0", { sig := [prefixDesc "a"], helptext := "h" })]
        ["b"] false =
      (.ok none, ["no valid command found; 10 closest matches:", "a"]) := by
  have h := (validate_command_resolution pa0
    [("cmd0", { sig := [prefixDesc "a"], helptext := "h" })] ["b"]
    (by decide)).2.2 (by decide)
  exact h.trans (by decide)

/-- C1 (code_bug): with `verbose=True`, `validate_command` passes the
verbosity flag into `validate`'s `partial` parameter (line 817
`validate(args, sig, verbose)`), so a top-ranked candidate whose required
`CephInt` argument is missing still "validates": the partially built dict
`{"prefix": "pool"}` is returned as success although the second, required
descriptor of the winning signature was never satisfied — strict validation
of the same input raises `ArgumentNumber`. -/
theorem validate_command_verbose_partial_bug :
    (validate_command pa0 tableC1 ["pool"] true).1 =
      .ok (some [(some "prefix", Val.scal (.str "pool"))]) ∧
    (sigC1.get? 1).map argdesc.req = some true ∧
    dictGet [(some "prefix", Val.scal (.str "pool"))] (some "n") = none ∧
    validate ["pool"] sigC1 false = .error .ArgumentNumber := by
  refine ⟨rfl, by decide, by decide, by decide⟩

/-- C3 counterexample: on the spec's worked example the values stored under
`"n"` are the integers 1, 2, 3 — `CephInt.valid` stores `long(s)` — not the
strings `"1"`, `"2"`, `"3"` the claim asserts. -/
theorem validate_pool_example_counterexample :
    (validate ["pool", "mypool", "1", "2", "3"] sig3 false).toOption.bind
        (fun d => dictGet d (some "n")) =
      some (.seq [.int 1, .int 2, .int 3]) ∧
    Val.seq [.int 1, .int 2, .int 3] ≠
      Val.seq [.str "1", .str "2", .str "3"] := by decide

/-- C3 (corrected): strict validation of the example signature against
`["pool","mypool","1","2","3"]` succeeds and returns exactly
`{"prefix": "pool", "pool": "mypool", "n": [1, 2, 3]}` — the values under
`"n"` being the numeric values produced by `CephInt`, in input order. -/
theorem validate_pool_example :
    validate ["pool", "mypool", "1", "2", "3"] sig3 false =
      .ok [(some "prefix", .scal (.str "pool")),
           (some "pool", .scal (.str "mypool")),
           (some "n", .seq [.int 1, .int 2, .int 3])] := by decide

/-- C6 (code_bug): `CephInt.valid` uses `long(s)` with the default base 10,
which rejects hex-prefixed integers, so `"0x1a"` fails with `ArgumentValid`
although the class's own docstring (`[+|-][0-9]+ or 0x[0-9a-f]+`) and the
spec promise the full integer lexical space including hex; signed decimals
are accepted with their numeric value. -/
theorem cephInt_hex_rejected :
    cephInt_valid [] "0x1a" = .error .ArgumentValid ∧
    cephInt_valid [] "26" = .ok (.int 26) ∧
    cephInt_valid [] "-26" = .ok (.int (-26)) ∧
    cephInt_valid [] "+26" = .ok (.int 26) := by decide

/-- C8 (code_bug): `CephIPAddr.valid` rejects an IPv4 port above 65535 and a
bracketed IPv6 literal missing its `]`, but for a bracketed IPv6 address it
parses the port as the SINGLE character `s[end+2]`, so `"[::1]:99999"` —
port 99999 > 65535 — validates successfully (the parsed "port" is 9), and
`CephEntityAddr.valid`, which reuses it, accepts `"[::1]:99999/0"`. -/
theorem cephIPAddr_port_checks :
    cephIPAddr_valid "1.2.3.4:70000" = .error .ArgumentValid ∧
    cephIPAddr_valid "[::1:80" = .error .ArgumentFormat ∧
    cephIPAddr_valid "[::1]:99999" = .ok (.str "[::1]:99999") ∧
    cephEntityAddr_valid "[::1]:99999/0" = .ok (.str "[::1]:99999/0") := by
  decide

/-- C9 counterexample: a token with more than one `.` makes
`poolid, pgnum = s.split('.')` raise an uncaught Python `ValueError` — not
the `ArgumentFormat` (FormatError) the claim asserts. -/
theorem cephPgid_two_dots_counterexample :
    cephPgid_valid "1.2.3" = .error .PyValueError ∧
    Exc.PyValueError ≠ Exc.ArgumentFormat ∧
    isArgumentError .PyValueError = false := by decide

/-- C7 (confirmed): for a `CephInt` built with a `[min,max]` or `[min]`
range, validating any token whose `long()` value is `z` succeeds with that
same numeric value exactly when `z` is inside the range, and fails with
`ArgumentValid` (ValidationError) when it is outside; the partial flag is
ignored. -/
theorem cephInt_range_check (mn mx z : Int) (s : String) (p : Bool)
    (h : pyLong s = some z) :
    ceph_valid (.CephInt [mn, mx]) s p =
      (if z < mn ∨ z > mx then .error .ArgumentValid else .ok (.int z)) ∧
    ceph_valid (.CephInt [mn]) s p =
      (if z < mn then .error .ArgumentValid else .ok (.int z)) := by
  constructor <;> simp [ceph_valid, cephInt_valid, h]

/-- Witness for C7: `"7"` is out of range for `[1,5]` and in range for
`[1]`. -/
theorem cephInt_range_check_witness :
    pyLong "7" = some 7 ∧
    ceph_valid (.CephInt [1, 5]) "7" false = .error .ArgumentValid ∧
    ceph_valid (.CephInt [1]) "7" false = .ok (.int 7) := by
  refine ⟨by decide, ?_, ?_⟩
  · rw [(cephInt_range_check 1 5 7 "7" false (by decide)).1]
    decide
  · rw [(cephInt_range_check 1 5 7 "7" false (by decide)).2]
    decide

/-- A character with no occurrence of `t` splits into a single piece. -/
theorem idxOf_none_split (t : Char) :
    ∀ (cs : List Char), idxOf cs t = none → splitChar t cs = [cs] := by
  intro cs
  induction cs with
  | nil => intro _; rfl
  | cons c cs' ih =>
    intro h
    simp only [idxOf] at h
    by_cases hc : c = t
    · simp [hc] at h
    · rw [if_neg hc] at h
      have h' : idxOf cs' t = none := by
        cases hi : idxOf cs' t with
        | none => rfl
        | some i => rw [hi] at h; cases h
      simp [splitChar, hc, ih h']

/-- C9 (corrected, amended): `CephPgid.valid` succeeds exactly on tokens
with exactly one `.` separator and a hex (`int(pgnum, 16)`-parseable) pgnum
after it; a token with no `.` or with a non-hex pgnum fails with
`ArgumentFormat`; but a token with more than one `.` fails with an uncaught
Python `ValueError` from tuple unpacking, not with `ArgumentFormat`. -/
theorem cephPgid_characterization (s : String) :
    (pyFind s '.' = -1 → cephPgid_valid s = .error .ArgumentFormat) ∧
    (∀ a b, splitChar '.' s.data = [a, b] →
      cephPgid_valid s =
        (match pyInt16List b with
         | none => .error .ArgumentFormat
         | some _ => .ok (.str s))) ∧
    (∀ g1 g2 g3 gs, splitChar '.' s.data = g1 :: g2 :: g3 :: gs →
      cephPgid_valid s = .error .PyValueError) := by
  refine ⟨?_, ?_, ?_⟩
  · intro h
    simp [cephPgid_valid, h]
  · intro a b hsplit
    have hfind : ¬ (pyFind s '.' == -1) = true := by
      intro hf
      have hnone : idxOf s.data '.' = none := by
        unfold pyFind at hf
        cases hi : idxOf s.data '.' with
        | none => rfl
        | some i => rw [hi] at hf; simp at hf
      rw [idxOf_none_split '.' s.data hnone] at hsplit
      simp at hsplit
    simp only [cephPgid_valid, if_neg hfind, hsplit]
  · intro g1 g2 g3 gs hsplit
    have hfind : ¬ (pyFind s '.' == -1) = true := by
      intro hf
      have hnone : idxOf s.data '.' = none := by
        unfold pyFind at hf
        cases hi : idxOf s.data '.' with
        | none => rfl
        | some i => rw [hi] at hf; simp at hf
      rw [idxOf_none_split '.' s.data hnone] at hsplit
      simp at hsplit
    simp only [cephPgid_valid, if_neg hfind, hsplit]

/-- Witness for C9's amended characterization at concrete tokens: non-hex
pgnum rejected as `ArgumentFormat`, hex pgnum accepted, two separators an
uncaught `ValueError`. -/
theorem cephPgid_characterization_witness :
    cephPgid_valid "12.g" = .error .ArgumentFormat ∧
    cephPgid_valid "12.ff" = .ok (.str "12.ff") ∧
    cephPgid_valid "1.2.3" = .error .PyValueError := by
  refine ⟨?_, ?_, ?_⟩
  · exact ((cephPgid_characterization "12.g").2.1 "12".data "g".data
      (by decide)).trans (by decide)
  · exact ((cephPgid_characterization "12.ff").2.1 "12".data "ff".data
      (by decide)).trans (by decide)
  · exact (cephPgid_characterization "1.2.3").2.2 "1".data "2".data "3".data []
      (by decide)
